import Mathlib

/-!
Verification of the `opquiz-space` relational schema (`src/models.py`).

The repository is a single declarative SQLAlchemy module: five entity
classes (Site, Contract, Invoice, TSRecords), two string enumerations
(Techno, InvoiceStatus) and one `Literal` string set for the invoicing
frequency.  The column types, primary keys, unique constraints and
foreign keys below are translated directly from `models.py`.  The
operational behaviour of an insert or update under those constraints is
not code of the module: the spec delegates constraint enforcement to the
storage engine, so the insert and update operations here are modelled
from the spec and carry a `Modelled from the spec:` doc comment.

Column value types: Python `float` columns carry no claim about rounding
or arithmetic in this development, so they are embedded as `Rat`;
`date` columns as `Int` (an ordinal day count, keeping the calendar
order); timezone-aware `datetime` columns as `Int` (an epoch instant).
-/

/-- Python `date` column (`sa.Date`): calendar date as an ordinal day count. -/
abbrev PyDate := Int

/-- Python `datetime` column (`sa.types.TIMESTAMP(timezone=True)`): an epoch instant. -/
abbrev PyDatetime := Int

/-- Python `float` column: embedded as a rational, since no claim depends on
floating-point rounding. -/
abbrev PyFloat := Rat

/-- `class Techno(enum.StrEnum)` from `src/models.py` lines 26-40: eleven members,
each created with `enum.auto()`. -/
inductive Techno where
  | wind_turbine_onshore
  | wind_turbine_offshore
  | solar_field_ground_mounted
  | solar_field_rooftop
  | solar_field_canopy
  | hydro_turbine_run_of_river
  | hydro_turbine_pumped_storage
  | hydro_turbine_reservoir
  | cogeneration_biomass
  | cogeneration_waste
  | cogeneration_other
deriving DecidableEq

/-- The string value of each `Techno` member.  `enum.auto()` on a `StrEnum`
sets the value to the lower-cased member name; every member name in the source
is already lower case, so the value is the literal member name. -/
def Techno.toStr : Techno → String
  | .wind_turbine_onshore => "wind_turbine_onshore"
  | .wind_turbine_offshore => "wind_turbine_offshore"
  | .solar_field_ground_mounted => "solar_field_ground_mounted"
  | .solar_field_rooftop => "solar_field_rooftop"
  | .solar_field_canopy => "solar_field_canopy"
  | .hydro_turbine_run_of_river => "hydro_turbine_run_of_river"
  | .hydro_turbine_pumped_storage => "hydro_turbine_pumped_storage"
  | .hydro_turbine_reservoir => "hydro_turbine_reservoir"
  | .cogeneration_biomass => "cogeneration_biomass"
  | .cogeneration_waste => "cogeneration_waste"
  | .cogeneration_other => "cogeneration_other"

/-- Reading a persisted `Techno` string back into the enumeration: the inverse
of the `StrEnum` value mapping, rejecting unknown strings. -/
def Techno.ofStr : String → Option Techno
  | "wind_turbine_onshore" => some .wind_turbine_onshore
  | "wind_turbine_offshore" => some .wind_turbine_offshore
  | "solar_field_ground_mounted" => some .solar_field_ground_mounted
  | "solar_field_rooftop" => some .solar_field_rooftop
  | "solar_field_canopy" => some .solar_field_canopy
  | "hydro_turbine_run_of_river" => some .hydro_turbine_run_of_river
  | "hydro_turbine_pumped_storage" => some .hydro_turbine_pumped_storage
  | "hydro_turbine_reservoir" => some .hydro_turbine_reservoir
  | "cogeneration_biomass" => some .cogeneration_biomass
  | "cogeneration_waste" => some .cogeneration_waste
  | "cogeneration_other" => some .cogeneration_other
  | _ => none

/-- All members of `Techno`, in source order. -/
def Techno.all : List Techno :=
  [ .wind_turbine_onshore, .wind_turbine_offshore,
    .solar_field_ground_mounted, .solar_field_rooftop, .solar_field_canopy,
    .hydro_turbine_run_of_river, .hydro_turbine_pumped_storage, .hydro_turbine_reservoir,
    .cogeneration_biomass, .cogeneration_waste, .cogeneration_other ]

/-- `class InvoiceStatus(enum.StrEnum)` from `src/models.py` lines 85-90: five
members created with `enum.auto()`. -/
inductive InvoiceStatus where
  | draft
  | computed
  | error
  | published
  | paid
deriving DecidableEq

/-- The string value of each `InvoiceStatus` member (`enum.auto()` on a
`StrEnum`: the value is the literal lower-case member name). -/
def InvoiceStatus.toStr : InvoiceStatus → String
  | .draft => "draft"
  | .computed => "computed"
  | .error => "error"
  | .published => "published"
  | .paid => "paid"

/-- Reading a persisted `InvoiceStatus` string back into the enumeration. -/
def InvoiceStatus.ofStr : String → Option InvoiceStatus
  | "draft" => some .draft
  | "computed" => some .computed
  | "error" => some .error
  | "published" => some .published
  | "paid" => some .paid
  | _ => none

/-- All members of `InvoiceStatus`, in source order. -/
def InvoiceStatus.all : List InvoiceStatus :=
  [.draft, .computed, .error, .published, .paid]

/-- `Contract.invoicing_frequency` is typed
`Literal["Monthly", "Quarterly", "Bi-annually", "Annually"]`
(`src/models.py` lines 75-77): a closed four-element string set. -/
inductive InvoicingFrequency where
  | monthly
  | quarterly
  | biAnnually
  | annually
deriving DecidableEq

/-- The literal string of each `invoicing_frequency` alternative, exactly as
written in the `Literal` type. -/
def InvoicingFrequency.toStr : InvoicingFrequency → String
  | .monthly => "Monthly"
  | .quarterly => "Quarterly"
  | .biAnnually => "Bi-annually"
  | .annually => "Annually"

/-- All alternatives of the `invoicing_frequency` `Literal` type, in source order. -/
def InvoicingFrequency.all : List InvoicingFrequency :=
  [.monthly, .quarterly, .biAnnually, .annually]

/-- A row of table `sites` (`class Site`, `src/models.py` lines 43-59).
Columns only; the `contracts` and `ts_records` relationship attributes are ORM
views of the foreign keys on the child tables, not columns of `sites`. -/
structure Site where
  id : Nat
  name : String
  capacity : PyFloat
  techno : Techno
  latitude : PyFloat
  longitude : PyFloat
deriving DecidableEq

/-- A row of table `contracts` (`class Contract`, `src/models.py` lines 62-82).
`site_id` is `sa.ForeignKey("sites.id")`. -/
structure Contract where
  id : Nat
  purchase_order : String
  start_date : PyDate
  end_date : PyDate
  site_id : Nat
  price : PyFloat
  invoicing_frequency : InvoicingFrequency
deriving DecidableEq

/-- A row of table `invoices` (`class Invoice`, `src/models.py` lines 93-111).
`contract_id` is `sa.ForeignKey("contracts.id")`. -/
structure Invoice where
  id : Nat
  start_date : PyDate
  end_date : PyDate
  publication_id : String
  amount : PyFloat
  amount_unit : String
  status : InvoiceStatus
  contract_id : Nat
deriving DecidableEq

/-- A row of table `timeseries_records` (`class TSRecords`, `src/models.py`
lines 114-130).  The primary key is the composite (`site_id`, `timestamp`):
both columns carry `primary_key=True` and the class declares no surrogate
`id` column, which is why this structure has no `id` field. -/
structure TSRecords where
  site_id : Nat
  timestamp : PyDatetime
  production : PyFloat
  unit_production : String
  cashflow : PyFloat
  unit_cashflow : String
deriving DecidableEq

/-- The whole persisted database: one list of rows per declared table. -/
structure DBState where
  sites : List Site
  contracts : List Contract
  invoices : List Invoice
  ts_records : List TSRecords
deriving DecidableEq

/-- Failures of the schema layer.  Spec section 7 names `UniquenessViolation`
and `ReferentialIntegrityViolation`; `LengthViolation` is the rejection by the
declared column type when a string exceeds its `sa.String(n)` bound. -/
inductive SchemaError where
  | UniquenessViolation
  | ReferentialIntegrityViolation
  | LengthViolation
deriving DecidableEq

/-- Modelled from the spec: the storage-engine insert into `sites`, absent
from `src/` (spec section 7 delegates constraint enforcement to the storage
engine).  It enforces the declared column type `sa.String(100)` on `name`,
primary-key uniqueness on `id`, and `unique=True` on `name`; on failure the
table is unchanged (no new state is produced). -/
def insertSite (db : DBState) (s : Site) : Except SchemaError DBState :=
  if s.name.length > 100 then .error .LengthViolation
  else if ∃ t ∈ db.sites, t.id = s.id then .error .UniquenessViolation
  else if ∃ t ∈ db.sites, t.name = s.name then .error .UniquenessViolation
  else .ok { db with sites := db.sites ++ [s] }

/-- Modelled from the spec: the storage-engine insert into `contracts`.  It
enforces `sa.String(50)` on `purchase_order`, primary-key uniqueness on `id`,
`unique=True` on `purchase_order`, and the foreign key
`site_id → sites.id`.  No check relates `start_date` and `end_date`: the
source declares the two `sa.Date` columns with no constraint between them. -/
def insertContract (db : DBState) (c : Contract) : Except SchemaError DBState :=
  if c.purchase_order.length > 50 then .error .LengthViolation
  else if ∃ t ∈ db.contracts, t.id = c.id then .error .UniquenessViolation
  else if ∃ t ∈ db.contracts, t.purchase_order = c.purchase_order then .error .UniquenessViolation
  else if ∃ s ∈ db.sites, s.id = c.site_id then
    .ok { db with contracts := db.contracts ++ [c] }
  else .error .ReferentialIntegrityViolation

/-- Modelled from the spec: the storage-engine insert into `invoices`.  It
enforces `sa.String(50)` on `publication_id`, primary-key uniqueness on `id`,
`unique=True` on `publication_id`, and the foreign key
`contract_id → contracts.id`.  No check relates `start_date` and `end_date`,
and no check constrains the `status` value beyond its enumerated type. -/
def insertInvoice (db : DBState) (i : Invoice) : Except SchemaError DBState :=
  if i.publication_id.length > 50 then .error .LengthViolation
  else if ∃ t ∈ db.invoices, t.id = i.id then .error .UniquenessViolation
  else if ∃ t ∈ db.invoices, t.publication_id = i.publication_id then .error .UniquenessViolation
  else if ∃ c ∈ db.contracts, c.id = i.contract_id then
    .ok { db with invoices := db.invoices ++ [i] }
  else .error .ReferentialIntegrityViolation

/-- Modelled from the spec: the storage-engine insert into
`timeseries_records`.  It enforces the composite primary key
(`site_id`, `timestamp`) and the foreign key `site_id → sites.id`. -/
def insertTSRecords (db : DBState) (r : TSRecords) : Except SchemaError DBState :=
  if ∃ t ∈ db.ts_records, t.site_id = r.site_id ∧ t.timestamp = r.timestamp then
    .error .UniquenessViolation
  else if ∃ s ∈ db.sites, s.id = r.site_id then
    .ok { db with ts_records := db.ts_records ++ [r] }
  else .error .ReferentialIntegrityViolation

/-- Modelled from the spec: the storage-engine update of an `invoices` row
status.  The schema declares no transition guard on `status`
(`src/models.py` line 105 is a bare `mapped_column()`), so the write is
accepted for every target value. -/
def updateInvoiceStatus (db : DBState) (invId : Nat) (st : InvoiceStatus) :
    Except SchemaError DBState :=
  .ok { db with invoices :=
          db.invoices.map (fun i => if i.id = invId then { i with status := st } else i) }

/-- Referential integrity across the whole database: the three declared
foreign keys each point at an existing parent row. -/
def refIntegrity (db : DBState) : Prop :=
  (∀ c ∈ db.contracts, ∃ s ∈ db.sites, s.id = c.site_id) ∧
  (∀ i ∈ db.invoices, ∃ c ∈ db.contracts, c.id = i.contract_id) ∧
  (∀ r ∈ db.ts_records, ∃ s ∈ db.sites, s.id = r.site_id)

/-- The declared `sa.String(n)` bounds hold on every stored row. -/
def lengthBounds (db : DBState) : Prop :=
  (∀ s ∈ db.sites, s.name.length ≤ 100) ∧
  (∀ c ∈ db.contracts, c.purchase_order.length ≤ 50) ∧
  (∀ i ∈ db.invoices, i.publication_id.length ≤ 50)

/-- At most one `timeseries_records` row per (`site_id`, `timestamp`) pair:
the uniqueness given by the composite primary key. -/
def tsKeyUnique (db : DBState) : Prop :=
  db.ts_records.Pairwise (fun a b => a.site_id ≠ b.site_id ∨ a.timestamp ≠ b.timestamp)

/-- The persisted image of a `sites` row: every enumerated column is stored as
its string value (`mapper_registry` maps `Techno` to `sa.String`,
`src/models.py` lines 133-136). -/
structure StoredSiteRow where
  id : Nat
  name : String
  capacity : PyFloat
  techno : String
  latitude : PyFloat
  longitude : PyFloat
deriving DecidableEq

/-- Writing a `Site` object to its table row: the `techno` column receives the
string value of the enumeration member. -/
def storeSite (s : Site) : StoredSiteRow :=
  { id := s.id, name := s.name, capacity := s.capacity,
    techno := s.techno.toStr, latitude := s.latitude, longitude := s.longitude }

/-- Reading a stored `sites` row back into a `Site` object, rejecting an
unknown `techno` string. -/
def loadSite (r : StoredSiteRow) : Option Site :=
  match Techno.ofStr r.techno with
  | some t => some { id := r.id, name := r.name, capacity := r.capacity,
                     techno := t, latitude := r.latitude, longitude := r.longitude }
  | none => none

/-! ## Inversion lemmas: what a successful insert or update looks like -/

/-- A successful `insertSite` appends the row and certifies its length bound. -/
lemma insertSite_ok {db : DBState} {s : Site} {db' : DBState}
    (h : insertSite db s = .ok db') :
    db' = { db with sites := db.sites ++ [s] } ∧ s.name.length ≤ 100 := by
  unfold insertSite at h
  split at h
  · simp at h
  split at h
  · simp at h
  split at h
  · simp at h
  next hlen _ _ =>
    simp only [Except.ok.injEq] at h
    exact ⟨h.symm, by omega⟩

/-- A successful `insertContract` appends the row, certifies the length bound
and the foreign key into `sites`. -/
lemma insertContract_ok {db : DBState} {c : Contract} {db' : DBState}
    (h : insertContract db c = .ok db') :
    db' = { db with contracts := db.contracts ++ [c] } ∧
      c.purchase_order.length ≤ 50 ∧ ∃ s ∈ db.sites, s.id = c.site_id := by
  unfold insertContract at h
  split at h
  · simp at h
  split at h
  · simp at h
  split at h
  · simp at h
  split at h
  · next hlen _ _ hfk =>
    simp only [Except.ok.injEq] at h
    exact ⟨h.symm, by omega, hfk⟩
  · simp at h

/-- A successful `insertInvoice` appends the row, certifies the length bound
and the foreign key into `contracts`. -/
lemma insertInvoice_ok {db : DBState} {i : Invoice} {db' : DBState}
    (h : insertInvoice db i = .ok db') :
    db' = { db with invoices := db.invoices ++ [i] } ∧
      i.publication_id.length ≤ 50 ∧ ∃ c ∈ db.contracts, c.id = i.contract_id := by
  unfold insertInvoice at h
  split at h
  · simp at h
  split at h
  · simp at h
  split at h
  · simp at h
  split at h
  · next hlen _ _ hfk =>
    simp only [Except.ok.injEq] at h
    exact ⟨h.symm, by omega, hfk⟩
  · simp at h

/-- A successful `insertTSRecords` appends the row, certifies the foreign key
into `sites` and that no stored row already carries the composite key. -/
lemma insertTSRecords_ok {db : DBState} {r : TSRecords} {db' : DBState}
    (h : insertTSRecords db r = .ok db') :
    db' = { db with ts_records := db.ts_records ++ [r] } ∧
      (∃ s ∈ db.sites, s.id = r.site_id) ∧
      ∀ t ∈ db.ts_records, ¬(t.site_id = r.site_id ∧ t.timestamp = r.timestamp) := by
  unfold insertTSRecords at h
  split at h
  · simp at h
  split at h
  · next hdup hfk =>
    simp only [Except.ok.injEq] at h
    refine ⟨h.symm, hfk, ?_⟩
    intro t ht htk
    exact hdup ⟨t, ht, htk⟩
  · simp at h

/-- `updateInvoiceStatus` always succeeds and maps the status over the rows
whose `id` matches. -/
lemma updateInvoiceStatus_ok (db : DBState) (invId : Nat) (st : InvoiceStatus) :
    updateInvoiceStatus db invId st =
      .ok { db with invoices :=
              db.invoices.map (fun i => if i.id = invId then { i with status := st } else i) } :=
  rfl

/-! ## Concrete sample data (spec section 8 scenario) used by the witnesses -/

/-- The Site of the spec section 8 scenario. -/
def siteA : Site :=
  { id := 1, name := "Farm A", capacity := 500, techno := .wind_turbine_onshore,
    latitude := 48.8, longitude := 2.3 }

/-- The Contract of the spec section 8 scenario (dates as ordinal day counts). -/
def contractA : Contract :=
  { id := 1, purchase_order := "PO-001", start_date := 0, end_date := 365,
    site_id := 1, price := 45.5, invoicing_frequency := .monthly }

/-- The Invoice of the spec section 8 scenario. -/
def invoiceA : Invoice :=
  { id := 1, start_date := 0, end_date := 30, publication_id := "INV-0001",
    amount := 0, amount_unit := "EUR", status := .draft, contract_id := 1 }

/-- One stored time-series row for `siteA`. -/
def tsA : TSRecords :=
  { site_id := 1, timestamp := 0, production := 10, unit_production := "kWh",
    cashflow := 5, unit_cashflow := "EUR" }

/-- A small populated database: one row in each table. -/
def db0 : DBState :=
  { sites := [siteA], contracts := [contractA], invoices := [invoiceA], ts_records := [tsA] }

/-! ## The claims -/

/-- C1: inserting a Site whose `name` equals an existing Site's name, a
Contract whose `purchase_order` equals an existing Contract's, or an Invoice
whose `publication_id` equals an existing Invoice's, fails with
`UniquenessViolation`; the insert returns no new state, so the table is
unchanged.  The length hypotheses keep the declared column type from rejecting
the row before the unique constraint is consulted. -/
theorem secondary_unique_insert_fails
    (db : DBState) (s : Site) (c : Contract) (i : Invoice)
    (hsl : s.name.length ≤ 100)
    (hs : ∃ t ∈ db.sites, t.name = s.name)
    (hcl : c.purchase_order.length ≤ 50)
    (hc : ∃ t ∈ db.contracts, t.purchase_order = c.purchase_order)
    (hil : i.publication_id.length ≤ 50)
    (hi : ∃ t ∈ db.invoices, t.publication_id = i.publication_id) :
    insertSite db s = .error .UniquenessViolation ∧
    insertContract db c = .error .UniquenessViolation ∧
    insertInvoice db i = .error .UniquenessViolation := by
  refine ⟨?_, ?_, ?_⟩
  · unfold insertSite
    rw [if_neg (by omega)]
    by_cases hid : ∃ t ∈ db.sites, t.id = s.id
    · rw [if_pos hid]
    · rw [if_neg hid, if_pos hs]
  · unfold insertContract
    rw [if_neg (by omega)]
    by_cases hid : ∃ t ∈ db.contracts, t.id = c.id
    · rw [if_pos hid]
    · rw [if_neg hid, if_pos hc]
  · unfold insertInvoice
    rw [if_neg (by omega)]
    by_cases hid : ∃ t ∈ db.invoices, t.id = i.id
    · rw [if_pos hid]
    · rw [if_neg hid, if_pos hi]

/-- Witness for C1 on `db0`: re-inserting rows that reuse the stored name,
purchase order and publication id fails three times with
`UniquenessViolation`. -/
theorem secondary_unique_insert_fails_witness :
    insertSite db0 { siteA with id := 2 } = .error .UniquenessViolation ∧
    insertContract db0 { contractA with id := 2 } = .error .UniquenessViolation ∧
    insertInvoice db0 { invoiceA with id := 2 } = .error .UniquenessViolation :=
  secondary_unique_insert_fails db0 { siteA with id := 2 } { contractA with id := 2 }
    { invoiceA with id := 2 }
    (by decide) ⟨siteA, by simp [db0], rfl⟩
    (by decide) ⟨contractA, by simp [db0], rfl⟩
    (by decide) ⟨invoiceA, by simp [db0], rfl⟩

/-- C2: the `timeseries_records` table is keyed by the composite
(`site_id`, `timestamp`) — the row structure carries no surrogate `id`
column.  Inserting a second row with an identical (`site_id`, `timestamp`)
pair fails with `UniquenessViolation`; inserting a row with a new timestamp
for the same (existing) site succeeds; and a successful insert preserves the
at-most-one-row-per-key invariant. -/
theorem tsrecords_composite_key
    (db : DBState) (r r2 : TSRecords)
    (hdup : ∃ t ∈ db.ts_records, t.site_id = r.site_id ∧ t.timestamp = r.timestamp)
    (hsite : ∃ s ∈ db.sites, s.id = r2.site_id)
    (hnew : ∀ t ∈ db.ts_records, t.site_id = r2.site_id → t.timestamp ≠ r2.timestamp) :
    insertTSRecords db r = .error .UniquenessViolation ∧
    insertTSRecords db r2 = .ok { db with ts_records := db.ts_records ++ [r2] } ∧
    (tsKeyUnique db → tsKeyUnique { db with ts_records := db.ts_records ++ [r2] }) := by
  refine ⟨?_, ?_, ?_⟩
  · unfold insertTSRecords
    rw [if_pos hdup]
  · unfold insertTSRecords
    rw [if_neg ?hno, if_pos hsite]
    case hno =>
      rintro ⟨t, ht, hts, htt⟩
      exact hnew t ht hts htt
  · intro hu
    unfold tsKeyUnique at hu ⊢
    rw [List.pairwise_append]
    refine ⟨hu, List.pairwise_singleton _ _, ?_⟩
    intro a ha b hb
    simp only [List.mem_singleton] at hb
    subst hb
    by_cases hsid : a.site_id = b.site_id
    · exact Or.inr (hnew a ha hsid)
    · exact Or.inl hsid

/-- Witness for C2 on `db0`: re-inserting the stored (site 1, timestamp 0)
key fails, while (site 1, timestamp 1) is accepted and keeps the key
uniqueness of the table. -/
theorem tsrecords_composite_key_witness :
    insertTSRecords db0 { tsA with production := 99 } = .error .UniquenessViolation ∧
    insertTSRecords db0 { tsA with timestamp := 1 } =
      .ok { db0 with ts_records := db0.ts_records ++ [{ tsA with timestamp := 1 }] } ∧
    (tsKeyUnique db0 →
      tsKeyUnique { db0 with ts_records := db0.ts_records ++ [{ tsA with timestamp := 1 }] }) :=
  tsrecords_composite_key db0 { tsA with production := 99 } { tsA with timestamp := 1 }
    ⟨tsA, by simp [db0], rfl, rfl⟩
    ⟨siteA, by simp [db0], rfl⟩
    (by intro t ht hts; simp [db0, tsA] at ht; simp [ht, tsA])

/-! ## Preservation of referential integrity by every modelled operation -/

lemma refIntegrity_insertSite {db : DBState} {s : Site} {db' : DBState}
    (hri : refIntegrity db) (h : insertSite db s = .ok db') : refIntegrity db' := by
  obtain ⟨hshape, -⟩ := insertSite_ok h
  subst hshape
  obtain ⟨h1, h2, h3⟩ := hri
  refine ⟨?_, h2, ?_⟩
  · intro c hc
    obtain ⟨p, hp, hpe⟩ := h1 c hc
    exact ⟨p, List.mem_append_left _ hp, hpe⟩
  · intro r hr
    obtain ⟨p, hp, hpe⟩ := h3 r hr
    exact ⟨p, List.mem_append_left _ hp, hpe⟩

lemma refIntegrity_insertContract {db : DBState} {c : Contract} {db' : DBState}
    (hri : refIntegrity db) (h : insertContract db c = .ok db') : refIntegrity db' := by
  obtain ⟨hshape, -, hfk⟩ := insertContract_ok h
  subst hshape
  obtain ⟨h1, h2, h3⟩ := hri
  refine ⟨?_, ?_, h3⟩
  · intro t ht
    rcases List.mem_append.mp ht with hold | hnew
    · exact h1 t hold
    · simp only [List.mem_singleton] at hnew
      subst hnew
      exact hfk
  · intro i hi
    obtain ⟨p, hp, hpe⟩ := h2 i hi
    exact ⟨p, List.mem_append_left _ hp, hpe⟩

lemma refIntegrity_insertInvoice {db : DBState} {i : Invoice} {db' : DBState}
    (hri : refIntegrity db) (h : insertInvoice db i = .ok db') : refIntegrity db' := by
  obtain ⟨hshape, -, hfk⟩ := insertInvoice_ok h
  subst hshape
  obtain ⟨h1, h2, h3⟩ := hri
  refine ⟨h1, ?_, h3⟩
  intro t ht
  rcases List.mem_append.mp ht with hold | hnew
  · exact h2 t hold
  · simp only [List.mem_singleton] at hnew
    subst hnew
    exact hfk

lemma refIntegrity_insertTSRecords {db : DBState} {r : TSRecords} {db' : DBState}
    (hri : refIntegrity db) (h : insertTSRecords db r = .ok db') : refIntegrity db' := by
  obtain ⟨hshape, hfk, -⟩ := insertTSRecords_ok h
  subst hshape
  obtain ⟨h1, h2, h3⟩ := hri
  refine ⟨h1, h2, ?_⟩
  intro t ht
  rcases List.mem_append.mp ht with hold | hnew
  · exact h3 t hold
  · simp only [List.mem_singleton] at hnew
    subst hnew
    exact hfk

lemma refIntegrity_updateInvoiceStatus {db : DBState} {invId : Nat} {st : InvoiceStatus}
    {db' : DBState} (hri : refIntegrity db)
    (h : updateInvoiceStatus db invId st = .ok db') : refIntegrity db' := by
  rw [updateInvoiceStatus_ok] at h
  simp only [Except.ok.injEq] at h
  subst h
  obtain ⟨h1, h2, h3⟩ := hri
  refine ⟨h1, ?_, h3⟩
  intro t ht
  simp only [List.mem_map] at ht
  obtain ⟨i0, hi0, hmap⟩ := ht
  obtain ⟨p, hp, hpe⟩ := h2 i0 hi0
  refine ⟨p, hp, ?_⟩
  subst hmap
  by_cases hid : i0.id = invId <;> simp [hid, hpe]

/-- C3: a Contract whose `site_id`, an Invoice whose `contract_id`, or a
TSRecords row whose `site_id` references no existing parent is rejected with
`ReferentialIntegrityViolation` (the other hypotheses rule out the earlier
length and uniqueness rejections); and every modelled operation preserves the
invariant that all stored foreign keys reference an existing parent row. -/
theorem foreign_keys_enforced
    (db : DBState) (c : Contract) (i : Invoice) (r : TSRecords)
    (hcl : c.purchase_order.length ≤ 50)
    (hcid : ∀ t ∈ db.contracts, t.id ≠ c.id)
    (hcpo : ∀ t ∈ db.contracts, t.purchase_order ≠ c.purchase_order)
    (hcfk : ∀ s ∈ db.sites, s.id ≠ c.site_id)
    (hil : i.publication_id.length ≤ 50)
    (hiid : ∀ t ∈ db.invoices, t.id ≠ i.id)
    (hipub : ∀ t ∈ db.invoices, t.publication_id ≠ i.publication_id)
    (hifk : ∀ t ∈ db.contracts, t.id ≠ i.contract_id)
    (hrdup : ∀ t ∈ db.ts_records, ¬(t.site_id = r.site_id ∧ t.timestamp = r.timestamp))
    (hrfk : ∀ s ∈ db.sites, s.id ≠ r.site_id) :
    insertContract db c = .error .ReferentialIntegrityViolation ∧
    insertInvoice db i = .error .ReferentialIntegrityViolation ∧
    insertTSRecords db r = .error .ReferentialIntegrityViolation ∧
    (∀ (db1 : DBState) (s1 : Site) (db1' : DBState), refIntegrity db1 →
        insertSite db1 s1 = .ok db1' → refIntegrity db1') ∧
    (∀ (db1 : DBState) (c1 : Contract) (db1' : DBState), refIntegrity db1 →
        insertContract db1 c1 = .ok db1' → refIntegrity db1') ∧
    (∀ (db1 : DBState) (i1 : Invoice) (db1' : DBState), refIntegrity db1 →
        insertInvoice db1 i1 = .ok db1' → refIntegrity db1') ∧
    (∀ (db1 : DBState) (r1 : TSRecords) (db1' : DBState), refIntegrity db1 →
        insertTSRecords db1 r1 = .ok db1' → refIntegrity db1') ∧
    (∀ (db1 : DBState) (n : Nat) (st : InvoiceStatus) (db1' : DBState), refIntegrity db1 →
        updateInvoiceStatus db1 n st = .ok db1' → refIntegrity db1') := by
  refine ⟨?_, ?_, ?_,
    fun _ _ _ => refIntegrity_insertSite,
    fun _ _ _ => refIntegrity_insertContract,
    fun _ _ _ => refIntegrity_insertInvoice,
    fun _ _ _ => refIntegrity_insertTSRecords,
    fun _ _ _ _ => refIntegrity_updateInvoiceStatus⟩
  · unfold insertContract
    rw [if_neg (by omega),
        if_neg (by rintro ⟨t, ht, he⟩; exact hcid t ht he),
        if_neg (by rintro ⟨t, ht, he⟩; exact hcpo t ht he),
        if_neg (by rintro ⟨s1, hs1, he⟩; exact hcfk s1 hs1 he)]
  · unfold insertInvoice
    rw [if_neg (by omega),
        if_neg (by rintro ⟨t, ht, he⟩; exact hiid t ht he),
        if_neg (by rintro ⟨t, ht, he⟩; exact hipub t ht he),
        if_neg (by rintro ⟨t, ht, he⟩; exact hifk t ht he)]
  · unfold insertTSRecords
    rw [if_neg (by rintro ⟨t, ht, he⟩; exact hrdup t ht he),
        if_neg (by rintro ⟨s1, hs1, he⟩; exact hrfk s1 hs1 he)]

/-- Witness for C3 on `db0`: rows pointing at the nonexistent parent id 7 are
rejected with `ReferentialIntegrityViolation`, and `refIntegrity` holds of the
state reached by a successful insert into `db0`. -/
theorem foreign_keys_enforced_witness :
    insertContract db0 { contractA with id := 2, purchase_order := "PO-002", site_id := 7 } =
      .error .ReferentialIntegrityViolation ∧
    insertInvoice db0 { invoiceA with id := 2, publication_id := "INV-0002", contract_id := 7 } =
      .error .ReferentialIntegrityViolation ∧
    insertTSRecords db0 { tsA with site_id := 7 } = .error .ReferentialIntegrityViolation := by
  have h := foreign_keys_enforced db0
    { contractA with id := 2, purchase_order := "PO-002", site_id := 7 }
    { invoiceA with id := 2, publication_id := "INV-0002", contract_id := 7 }
    { tsA with site_id := 7 }
    (by decide) (by decide) (by decide) (by decide) (by decide) (by decide)
    (by decide) (by decide) (by decide) (by decide)
  exact ⟨h.1, h.2.1, h.2.2.1⟩

/-- C4: a stored `Site` persists its `techno` column as the literal string
name of the enumeration member — a `String`, not an integer code — the write
then read round trip is the identity, and in particular a Site whose techno is
`solar_field_rooftop` stores and returns exactly "solar_field_rooftop"; the
string decoding is a two-sided inverse for both enumerations. -/
theorem enum_string_round_trip :
    (∀ s : Site, (storeSite s).techno = s.techno.toStr ∧ loadSite (storeSite s) = some s) ∧
    (∀ s : Site, s.techno = Techno.solar_field_rooftop →
        (storeSite s).techno = "solar_field_rooftop") ∧
    (∀ t : Techno, Techno.ofStr t.toStr = some t) ∧
    (∀ st : InvoiceStatus, InvoiceStatus.ofStr st.toStr = some st) := by
  refine ⟨?_, ?_, ?_, ?_⟩
  · intro s
    refine ⟨rfl, ?_⟩
    cases s with
    | mk id name capacity techno latitude longitude => cases techno <;> rfl
  · intro s hs
    simp [storeSite, hs, Techno.toStr]
  · intro t
    cases t <;> rfl
  · intro st
    cases st <;> rfl

/-- Witness for C4: the round trip evaluated on the concrete rooftop-solar
variant of `siteA`. -/
theorem enum_string_round_trip_witness :
    (storeSite { siteA with techno := .solar_field_rooftop }).techno =
      "solar_field_rooftop" ∧
    loadSite (storeSite { siteA with techno := .solar_field_rooftop }) =
      some { siteA with techno := .solar_field_rooftop } :=
  ⟨enum_string_round_trip.2.1 { siteA with techno := .solar_field_rooftop } rfl,
   (enum_string_round_trip.1 { siteA with techno := .solar_field_rooftop }).2⟩

/-- C5: the schema enforces no status-transition guard.  For every stored
Invoice row (whatever its current status s1) and every target status s2 —
including the illegal pair paid to draft — the update is accepted, and the row
afterwards carries status s2. -/
theorem invoice_status_update_unguarded
    (db : DBState) (i : Invoice) (s2 : InvoiceStatus) (hmem : i ∈ db.invoices) :
    ∃ db', updateInvoiceStatus db i.id s2 = .ok db' ∧
      ∃ i' ∈ db'.invoices, i'.id = i.id ∧ i'.status = s2 := by
  refine ⟨_, updateInvoiceStatus_ok db i.id s2, ?_⟩
  refine ⟨{ i with status := s2 }, ?_, rfl, rfl⟩
  simp only [List.mem_map]
  exact ⟨i, hmem, by simp⟩

/-- Witness for C5 on `db0`: the illegal transition paid to draft is accepted
by the schema layer. -/
theorem invoice_status_update_unguarded_witness :
    ∃ db', updateInvoiceStatus
        { db0 with invoices := [{ invoiceA with status := .paid }] }
        ({ invoiceA with status := InvoiceStatus.paid } : Invoice).id .draft = .ok db' ∧
      ∃ i' ∈ db'.invoices,
        i'.id = ({ invoiceA with status := InvoiceStatus.paid } : Invoice).id ∧
        i'.status = .draft :=
  invoice_status_update_unguarded
    { db0 with invoices := [{ invoiceA with status := .paid }] }
    { invoiceA with status := .paid } .draft (by simp)

/-- C6: the schema layer does not enforce start_date ≤ end_date.  A Contract
and an Invoice whose `end_date` is strictly before their `start_date` are both
accepted without any error, provided only that the declared constraints the
schema does enforce (length, uniqueness, foreign key) are met. -/
theorem end_date_before_start_date_accepted
    (db : DBState) (c : Contract) (i : Invoice)
    (hcdate : c.end_date < c.start_date)
    (hcl : c.purchase_order.length ≤ 50)
    (hcid : ∀ t ∈ db.contracts, t.id ≠ c.id)
    (hcpo : ∀ t ∈ db.contracts, t.purchase_order ≠ c.purchase_order)
    (hcfk : ∃ s ∈ db.sites, s.id = c.site_id)
    (hidate : i.end_date < i.start_date)
    (hil : i.publication_id.length ≤ 50)
    (hiid : ∀ t ∈ db.invoices, t.id ≠ i.id)
    (hipub : ∀ t ∈ db.invoices, t.publication_id ≠ i.publication_id)
    (hifk : ∃ t ∈ db.contracts, t.id = i.contract_id) :
    insertContract db c = .ok { db with contracts := db.contracts ++ [c] } ∧
    insertInvoice db i = .ok { db with invoices := db.invoices ++ [i] } := by
  constructor
  · unfold insertContract
    rw [if_neg (by omega),
        if_neg (by rintro ⟨t, ht, he⟩; exact hcid t ht he),
        if_neg (by rintro ⟨t, ht, he⟩; exact hcpo t ht he),
        if_pos hcfk]
  · unfold insertInvoice
    rw [if_neg (by omega),
        if_neg (by rintro ⟨t, ht, he⟩; exact hiid t ht he),
        if_neg (by rintro ⟨t, ht, he⟩; exact hipub t ht he),
        if_pos hifk]

/-- Witness for C6 on `db0`: a contract and an invoice running from day 100
back to day 50 are both accepted. -/
theorem end_date_before_start_date_accepted_witness :
    insertContract db0
        { contractA with id := 2, purchase_order := "PO-002",
                         start_date := 100, end_date := 50 } =
      .ok { db0 with contracts := db0.contracts ++
              [{ contractA with id := 2, purchase_order := "PO-002",
                                start_date := 100, end_date := 50 }] } ∧
    insertInvoice db0
        { invoiceA with id := 2, publication_id := "INV-0002",
                        start_date := 100, end_date := 50 } =
      .ok { db0 with invoices := db0.invoices ++
              [{ invoiceA with id := 2, publication_id := "INV-0002",
                               start_date := 100, end_date := 50 }] } :=
  end_date_before_start_date_accepted db0
    { contractA with id := 2, purchase_order := "PO-002",
                     start_date := 100, end_date := 50 }
    { invoiceA with id := 2, publication_id := "INV-0002",
                    start_date := 100, end_date := 50 }
    (by decide) (by decide) (by decide) (by decide)
    ⟨siteA, by simp [db0], rfl⟩
    (by decide) (by decide) (by decide) (by decide)
    ⟨contractA, by simp [db0], rfl⟩

/-- C7: `InvoiceStatus` is exactly the closed five-element set
{draft, computed, error, published, paid}: every member is one of the five
listed ones, their string values are exactly those five pairwise-distinct
strings, and every Invoice row's status string is among them. -/
theorem invoice_status_closed_set :
    (∀ st : InvoiceStatus, st ∈ InvoiceStatus.all) ∧
    InvoiceStatus.all.map InvoiceStatus.toStr =
      ["draft", "computed", "error", "published", "paid"] ∧
    (InvoiceStatus.all.map InvoiceStatus.toStr).Nodup ∧
    (∀ i : Invoice, i.status.toStr ∈ ["draft", "computed", "error", "published", "paid"]) := by
  refine ⟨?_, rfl, by decide, ?_⟩
  · intro st
    cases st <;> simp [InvoiceStatus.all]
  · intro i
    cases h : i.status <;> simp [InvoiceStatus.toStr]

/-- The wind family of `Techno` string values. -/
def Techno.windFamily : List String :=
  ["wind_turbine_onshore", "wind_turbine_offshore"]

/-- The solar family of `Techno` string values. -/
def Techno.solarFamily : List String :=
  ["solar_field_ground_mounted", "solar_field_rooftop", "solar_field_canopy"]

/-- The hydro family of `Techno` string values. -/
def Techno.hydroFamily : List String :=
  ["hydro_turbine_run_of_river", "hydro_turbine_pumped_storage", "hydro_turbine_reservoir"]

/-- The cogeneration family of `Techno` string values. -/
def Techno.cogenerationFamily : List String :=
  ["cogeneration_biomass", "cogeneration_waste", "cogeneration_other"]

/-- C8: `Techno` is a closed set of exactly 11 pairwise-distinct string
values, which splits into the four families — wind (2 members), solar (3),
hydro (3) and cogeneration (3) — and every Site row's techno is one of the 11
members. -/
theorem techno_closed_set :
    (∀ t : Techno, t ∈ Techno.all) ∧
    Techno.all.length = 11 ∧
    Techno.all.map Techno.toStr =
      Techno.windFamily ++ Techno.solarFamily ++
        Techno.hydroFamily ++ Techno.cogenerationFamily ∧
    (Techno.all.map Techno.toStr).Nodup ∧
    Techno.windFamily.length = 2 ∧ Techno.solarFamily.length = 3 ∧
    Techno.hydroFamily.length = 3 ∧ Techno.cogenerationFamily.length = 3 ∧
    (∀ s : Site, s.techno ∈ Techno.all) := by
  refine ⟨?_, rfl, rfl, by decide, rfl, rfl, rfl, rfl, ?_⟩
  · intro t
    cases t <;> simp [Techno.all]
  · intro s
    cases h : s.techno <;> simp [Techno.all]

/-- C9: the invoicing frequency is drawn from exactly the four strings
"Monthly", "Quarterly", "Bi-annually", "Annually": each alternative's string
is in the set, each string in the set is some alternative's string, no other
string is the string of any alternative, and every Contract row's
invoicing_frequency string is among the four. -/
theorem invoicing_frequency_closed_set :
    (∀ f : InvoicingFrequency,
        f.toStr ∈ ["Monthly", "Quarterly", "Bi-annually", "Annually"]) ∧
    (∀ x ∈ ["Monthly", "Quarterly", "Bi-annually", "Annually"],
        ∃ f : InvoicingFrequency, f.toStr = x) ∧
    (∀ x : String, (∃ f : InvoicingFrequency, f.toStr = x) →
        x ∈ ["Monthly", "Quarterly", "Bi-annually", "Annually"]) ∧
    (∀ c : Contract,
        c.invoicing_frequency.toStr ∈ ["Monthly", "Quarterly", "Bi-annually", "Annually"]) := by
  refine ⟨?_, ?_, ?_, ?_⟩
  · intro f
    cases f <;> simp [InvoicingFrequency.toStr]
  · intro x hx
    simp only [List.mem_cons, List.not_mem_nil, or_false] at hx
    rcases hx with h | h | h | h
    · exact ⟨.monthly, h.symm⟩
    · exact ⟨.quarterly, h.symm⟩
    · exact ⟨.biAnnually, h.symm⟩
    · exact ⟨.annually, h.symm⟩
  · rintro x ⟨f, hf⟩
    subst hf
    cases f <;> simp [InvoicingFrequency.toStr]
  · intro c
    cases h : c.invoicing_frequency <;> simp [InvoicingFrequency.toStr]

/-- Witness for C9: the four strings instantiated concretely, through the
surjectivity conjunct of the theorem. -/
theorem invoicing_frequency_closed_set_witness :
    (∃ f : InvoicingFrequency, f.toStr = "Monthly") ∧
    (∃ f : InvoicingFrequency, f.toStr = "Bi-annually") ∧
    "Monthly" ∈ ["Monthly", "Quarterly", "Bi-annually", "Annually"] :=
  ⟨invoicing_frequency_closed_set.2.1 "Monthly" (by decide),
   invoicing_frequency_closed_set.2.1 "Bi-annually" (by decide),
   invoicing_frequency_closed_set.2.2.1 "Monthly" ⟨.monthly, rfl⟩⟩

/-! ## Preservation of the declared string-length bounds -/

lemma lengthBounds_insertSite {db : DBState} {s : Site} {db' : DBState}
    (hlb : lengthBounds db) (h : insertSite db s = .ok db') : lengthBounds db' := by
  obtain ⟨hshape, hlen⟩ := insertSite_ok h
  subst hshape
  obtain ⟨h1, h2, h3⟩ := hlb
  refine ⟨?_, h2, h3⟩
  intro t ht
  rcases List.mem_append.mp ht with hold | hnew
  · exact h1 t hold
  · simp only [List.mem_singleton] at hnew
    subst hnew
    exact hlen

lemma lengthBounds_insertContract {db : DBState} {c : Contract} {db' : DBState}
    (hlb : lengthBounds db) (h : insertContract db c = .ok db') : lengthBounds db' := by
  obtain ⟨hshape, hlen, -⟩ := insertContract_ok h
  subst hshape
  obtain ⟨h1, h2, h3⟩ := hlb
  refine ⟨h1, ?_, h3⟩
  intro t ht
  rcases List.mem_append.mp ht with hold | hnew
  · exact h2 t hold
  · simp only [List.mem_singleton] at hnew
    subst hnew
    exact hlen

lemma lengthBounds_insertInvoice {db : DBState} {i : Invoice} {db' : DBState}
    (hlb : lengthBounds db) (h : insertInvoice db i = .ok db') : lengthBounds db' := by
  obtain ⟨hshape, hlen, -⟩ := insertInvoice_ok h
  subst hshape
  obtain ⟨h1, h2, h3⟩ := hlb
  refine ⟨h1, h2, ?_⟩
  intro t ht
  rcases List.mem_append.mp ht with hold | hnew
  · exact h3 t hold
  · simp only [List.mem_singleton] at hnew
    subst hnew
    exact hlen

lemma lengthBounds_insertTSRecords {db : DBState} {r : TSRecords} {db' : DBState}
    (hlb : lengthBounds db) (h : insertTSRecords db r = .ok db') : lengthBounds db' := by
  obtain ⟨hshape, -, -⟩ := insertTSRecords_ok h
  subst hshape
  exact hlb

lemma lengthBounds_updateInvoiceStatus {db : DBState} {invId : Nat} {st : InvoiceStatus}
    {db' : DBState} (hlb : lengthBounds db)
    (h : updateInvoiceStatus db invId st = .ok db') : lengthBounds db' := by
  rw [updateInvoiceStatus_ok] at h
  simp only [Except.ok.injEq] at h
  subst h
  obtain ⟨h1, h2, h3⟩ := hlb
  refine ⟨h1, h2, ?_⟩
  intro t ht
  simp only [List.mem_map] at ht
  obtain ⟨i0, hi0, hmap⟩ := ht
  have := h3 i0 hi0
  subst hmap
  by_cases hid : i0.id = invId <;> simp [hid, this]

/-- C10: the column types `sa.String(100)` on `Site.name` and `sa.String(50)`
on `Contract.purchase_order` and `Invoice.publication_id` bound every stored
row, and an insert whose string exceeds its bound is rejected by the declared
column type; every modelled operation preserves the bounds on stored rows. -/
theorem string_length_bounds
    (db : DBState) (s : Site) (c : Contract) (i : Invoice)
    (hs : s.name.length > 100)
    (hc : c.purchase_order.length > 50)
    (hi : i.publication_id.length > 50) :
    insertSite db s = .error .LengthViolation ∧
    insertContract db c = .error .LengthViolation ∧
    insertInvoice db i = .error .LengthViolation ∧
    (∀ (db1 : DBState) (s1 : Site) (db1' : DBState), lengthBounds db1 →
        insertSite db1 s1 = .ok db1' → lengthBounds db1') ∧
    (∀ (db1 : DBState) (c1 : Contract) (db1' : DBState), lengthBounds db1 →
        insertContract db1 c1 = .ok db1' → lengthBounds db1') ∧
    (∀ (db1 : DBState) (i1 : Invoice) (db1' : DBState), lengthBounds db1 →
        insertInvoice db1 i1 = .ok db1' → lengthBounds db1') ∧
    (∀ (db1 : DBState) (r1 : TSRecords) (db1' : DBState), lengthBounds db1 →
        insertTSRecords db1 r1 = .ok db1' → lengthBounds db1') ∧
    (∀ (db1 : DBState) (n : Nat) (st : InvoiceStatus) (db1' : DBState), lengthBounds db1 →
        updateInvoiceStatus db1 n st = .ok db1' → lengthBounds db1') := by
  refine ⟨?_, ?_, ?_,
    fun _ _ _ => lengthBounds_insertSite,
    fun _ _ _ => lengthBounds_insertContract,
    fun _ _ _ => lengthBounds_insertInvoice,
    fun _ _ _ => lengthBounds_insertTSRecords,
    fun _ _ _ _ => lengthBounds_updateInvoiceStatus⟩
  · unfold insertSite
    rw [if_pos hs]
  · unfold insertContract
    rw [if_pos hc]
  · unfold insertInvoice
    rw [if_pos hi]

/-- Witness for C10: over-long strings (101 and 51 characters) are rejected
on the concrete database `db0`. -/
theorem string_length_bounds_witness :
    insertSite db0
        { siteA with id := 2, name := String.mk (List.replicate 101 'a') } =
      .error .LengthViolation ∧
    insertContract db0
        { contractA with id := 2,
                         purchase_order := String.mk (List.replicate 51 'b') } =
      .error .LengthViolation ∧
    insertInvoice db0
        { invoiceA with id := 2,
                        publication_id := String.mk (List.replicate 51 'c') } =
      .error .LengthViolation := by
  have h := string_length_bounds db0
    { siteA with id := 2, name := String.mk (List.replicate 101 'a') }
    { contractA with id := 2, purchase_order := String.mk (List.replicate 51 'b') }
    { invoiceA with id := 2, publication_id := String.mk (List.replicate 51 'c') }
    (by decide) (by decide) (by decide)
  exact ⟨h.1, h.2.1, h.2.2.1⟩
